import Mathlib

/-
  Verification of the survey application (src/app.py): a shallow embedding of
  the definition parser, the branching engine, the result formatter and the
  survey registry, followed by theorems settling the specification claims.

  Conventions of the embedding:
  * Python `str` is modelled by Lean `String` (whose data is a `List Char`).
  * Python `dict` (insertion ordered, assignment replaces in place) is
    modelled as an insertion-ordered association list (the `dict*`
    operations below).
  * Python `float` values are IEEE-754 binary64, modelled exactly in
    sign-magnitude integer form (`PyFloat`): `float()` conversion is
    correct rounding to nearest, ties to even, with overflow to the
    infinities, and `str` is the shortest round-tripping decimal in
    CPython's positional/scientific format — all computed with exact
    integer arithmetic.
  * JSON payload values are modelled by `JVal`; Python `bool` counts as an
    `int` for `isinstance` checks, as in CPython.
  * Fallible code returns `Except String` (the Python code raises ValueError
    with a message).
-/

namespace SurveyApp

/-! ## Python string primitives -/

/-- Model of Python `str.strip()`: drop whitespace from both ends. -/
def pyStrip (s : String) : String :=
  ⟨((s.data.dropWhile Char.isWhitespace).reverse.dropWhile Char.isWhitespace).reverse⟩

/-- Lower-case one character (ASCII letters, as used by the survey sheets). -/
def pyCharLower (c : Char) : Char :=
  if 'A' ≤ c ∧ c ≤ 'Z' then Char.ofNat (c.toNat + 32) else c

/-- Model of Python `str.lower()`. -/
def pyLower (s : String) : String := ⟨s.data.map pyCharLower⟩

/-- Scan of Python `str.replace`: replace every non-overlapping occurrence of
`pat` (assumed non-empty) left to right. -/
def replaceL (pat rep : List Char) : List Char → List Char
  | [] => []
  | c :: t =>
    if pat.isPrefixOf (c :: t) then rep ++ replaceL pat rep (t.drop (pat.length - 1))
    else c :: replaceL pat rep t
termination_by l => l.length
decreasing_by
  · simp only [List.length_drop, List.length_cons]
    omega
  · simp only [List.length_cons]
    omega

/-- Model of Python `str.replace(pat, rep)` for a non-empty pattern. -/
def pyReplace (s pat rep : String) : String := ⟨replaceL pat.data rep.data s.data⟩

/-- Whether `pat` occurs as a contiguous sublist of `l`. -/
def hasOcc (pat : List Char) : List Char → Bool
  | [] => pat.isEmpty
  | c :: t => pat.isPrefixOf (c :: t) || hasOcc pat t

/-- Whether `pat` occurs as a substring of `s` (Python `pat in s`). -/
def hasOccStr (pat s : String) : Bool := hasOcc pat.data s.data

/-- Whether `pat` has no non-trivial border: no proper suffix of `pat` that
is also a prefix of `pat`. The placeholder `\x7banswers\x7d` satisfies this,
which makes occurrences of it non-overlapping. -/
def noBorderB (pat : List Char) : Bool :=
  (List.range pat.length).all (fun k => decide (k = 0) || !((pat.drop k).isPrefixOf pat))

/-! ## Python dict as an insertion-ordered association list -/

/-- A Python `dict` is modelled as its insertion-ordered list of key/value
entries; assignment to an existing key replaces the value in place,
otherwise it appends. The operations below carry the Python semantics. -/
def Dict (α β : Type) : Type := List (α × β)

/-- Key membership (`k in d`). -/
def dictHasKey {α β : Type} [DecidableEq α] (d : List (α × β)) (k : α) : Bool :=
  d.any (fun p => p.1 = k)

/-- Lookup (`d.get(k)`): the value of the first (hence only) entry with the
given key. -/
def dictGet? {α β : Type} [DecidableEq α] (d : List (α × β)) (k : α) : Option β :=
  (d.find? (fun p => p.1 = k)).map (fun p => p.2)

/-- Assignment (`d[k] = v`): replace in place when the key is present,
append otherwise. -/
def dictSet {α β : Type} [DecidableEq α] (d : List (α × β)) (k : α) (v : β) : List (α × β) :=
  if dictHasKey d k then d.map (fun p => if p.1 = k then (k, v) else p)
  else d ++ [(k, v)]

/-- The keys in insertion order. -/
def dictKeys {α β : Type} (d : List (α × β)) : List α := d.map (fun p => p.1)

/-- The key of the first entry (`next(iter(d.keys()))` on a non-empty dict);
a default for the empty dict. -/
def dictFirstKey {β : Type} (d : List (String × β)) : String :=
  match d with
  | [] => ""
  | p :: _ => p.1

/-! ## Python floats: IEEE-754 binary64 over exact integers

A CPython `float` is an IEEE-754 binary64 value. The embedding carries a
finite float in sign-magnitude form as `(-1)^neg * m * 2 ^ e2` with the
mantissa `m < 2 ^ 53` and `e2 ≥ -1074` (the canonical form `float64OfDec`
produces), `float()`-conversion rounds an exact decimal to the nearest such
value with ties to even and overflows to the infinities (as
`float("1e400")` does), and `str` produces the shortest decimal string that
converts back to the same value, in CPython's positional or scientific
format. Everything is exact integer arithmetic with fuel-bounded structural
recursion, so the kernel can evaluate it in witnesses. -/

/-- A Python float: a finite binary64 value `(-1)^neg * m * 2 ^ e2` in
sign-magnitude form (so `-0.0` is representable), or one of the special
values. -/
inductive PyFloat where
  | finite (neg : Bool) (m : Nat) (e2 : Int)
  | inf
  | ninf
  | nan
  deriving DecidableEq

/-- Number of binary digits, by fuel-bounded structural recursion (so the
kernel can evaluate it; 4000 bits of fuel covers every number reachable
from a float conversion in range). -/
def bitlenAux : Nat → Nat → Nat
  | 0, _ => 0
  | fuel + 1, n => if n = 0 then 0 else bitlenAux fuel (n / 2) + 1

/-- Bit length of a natural number. -/
def bitlen (n : Nat) : Nat := bitlenAux 4000 n

/-- Round the exact quotient `a / b` to the nearest integer, ties to even —
the IEEE-754 default rounding CPython uses for `float()` conversion. -/
def roundHalfEven (a b : Nat) : Nat :=
  let q := a / b
  let r := a % b
  if 2 * r < b then q
  else if b < 2 * r then q + 1
  else if q % 2 = 0 then q else q + 1

/-- The integer nearest (ties to even) to `mant * 10 ^ dexp / 2 ^ e2`,
computed exactly (negative exponents move to the other side of the
fraction; `Int.toNat` of a negative is zero). -/
def scaledMantissa (mant : Nat) (dexp e2 : Int) : Nat :=
  roundHalfEven (mant * 10 ^ dexp.toNat * 2 ^ (-e2).toNat)
    (10 ^ (-dexp).toNat * 2 ^ e2.toNat)

/-- Adjust the binary exponent until the rounded mantissa lands in
`[2^52, 2^53)`, or the exponent sits at the subnormal floor `-1074` with a
smaller mantissa. The initial estimate is off by at most two, so a little
fuel suffices. -/
def fixExponent : Nat → Nat → Int → Int → (Nat × Int)
  | 0, mant, dexp, e2 => (scaledMantissa mant dexp e2, e2)
  | fuel + 1, mant, dexp, e2 =>
    let m := scaledMantissa mant dexp e2
    if 2 ^ 53 ≤ m then fixExponent fuel mant dexp (e2 + 1)
    else if m < 2 ^ 52 ∧ -1074 < e2 then fixExponent fuel mant dexp (e2 - 1)
    else (m, e2)

/-- Convert the exact decimal `(-1)^neg * mant * 10 ^ dexp` to the nearest
binary64 value, ties to even: the correctly-rounded conversion CPython's
`float()` performs on a parsed decimal. Values beyond the largest finite
float become the infinities (`float("1e400")` is `inf`); values below half
the smallest subnormal underflow to (signed) zero. The coarse magnitude
clamps only cut off decimals whose value is out of range by more than a
whole decade, keeping the powers involved small. -/
def float64OfDec (neg : Bool) (mant : Nat) (dexp : Int) : PyFloat :=
  if mant = 0 then PyFloat.finite neg 0 0
  else
    let nd : Int := ((toString mant).length : Int)
    if 309 ≤ nd + dexp - 1 then (if neg then PyFloat.ninf else PyFloat.inf)
    else if nd + dexp < -340 then PyFloat.finite neg 0 0
    else
      let e2g : Int := (bitlen (mant * 10 ^ dexp.toNat) : Int) -
        (bitlen (10 ^ (-dexp).toNat) : Int) - 53
      let e2g := if e2g < -1074 then -1074 else e2g
      let p := fixExponent 8 mant dexp e2g
      if 971 < p.2 then (if neg then PyFloat.ninf else PyFloat.inf)
      else PyFloat.finite neg p.1 p.2

/-- Whether `m * 2 ^ e2 ≥ 10 ^ e10`, as an exact integer comparison. -/
def geTenPow (m : Nat) (e2 e10 : Int) : Bool :=
  10 ^ e10.toNat * 2 ^ (-e2).toNat ≤ m * 2 ^ e2.toNat * 10 ^ (-e10).toNat

/-- Adjust an estimate of `floor (log10 (m * 2 ^ e2))` until
`10 ^ E ≤ m * 2 ^ e2 < 10 ^ (E + 1)`. -/
def decExpAux : Nat → Nat → Int → Int → Int
  | 0, _, _, e => e
  | fuel + 1, m, e2, e =>
    if ¬ geTenPow m e2 e then decExpAux fuel m e2 (e - 1)
    else if geTenPow m e2 (e + 1) then decExpAux fuel m e2 (e + 1)
    else e

/-- `floor (log10 (m * 2 ^ e2))` for `m ≠ 0`, from a binary-length estimate
(`log10 2 ≈ 30103 / 100000`) plus a bounded adjustment. -/
def decExp10 (m : Nat) (e2 : Int) : Int :=
  let t : Int := (bitlen m : Int) + e2
  decExpAux 6 m e2 (((t - 1) * 30103).fdiv 100000)

/-- The decimal with `n` significant digits nearest to `m * 2 ^ e2` (given
`E = floor (log10 (m * 2 ^ e2))`): the digit block and the power of ten of
its leading digit (bumped when rounding carries into an extra digit). -/
def digitCandidate (m : Nat) (e2 E : Int) (n : Nat) : (Nat × Int) :=
  let k : Int := (n : Int) - 1 - E
  let d := roundHalfEven (m * 2 ^ e2.toNat * 10 ^ k.toNat)
    (2 ^ (-e2).toNat * 10 ^ (-k).toNat)
  if d = 10 ^ n then (10 ^ (n - 1), E + 1) else (d, E)

/-- Search for the fewest significant digits whose nearest decimal converts
back to exactly `m * 2 ^ e2` — the round-trip property defining CPython's
shortest `repr`/`str` of a float. Seventeen digits always suffice for a
canonical binary64 value, so the fuel is never exhausted on one. -/
def shortestAux (m : Nat) (e2 E : Int) : Nat → Nat → (Nat × Nat × Int)
  | 0, n => ((digitCandidate m e2 E n).1, n, (digitCandidate m e2 E n).2)
  | fuel + 1, n =>
    let c := digitCandidate m e2 E n
    if float64OfDec false c.1 (c.2 - (n : Int) + 1) = PyFloat.finite false m e2 then
      (c.1, n, c.2)
    else shortestAux m e2 E fuel (n + 1)

/-- The shortest round-tripping digits of `m * 2 ^ e2` (`m ≠ 0`): digit
block, digit count, and the power of ten of the leading digit. -/
def shortestDigits (m : Nat) (e2 : Int) : (Nat × Nat × Int) :=
  shortestAux m e2 (decExp10 m e2) 17 1

/-- Lay out a digit block the way CPython formats a float: scientific
notation (`d.ddde±XX`, exponent at least two digits) when the leading
digit's power of ten is below `-4` or at least `16`, positional decimal
with an `.0` tail for integral values otherwise. -/
def formatDigits (d : Nat) (n : Nat) (cE : Int) : String :=
  let ds := (toString d).data
  if cE < -4 ∨ 16 ≤ cE then
    let mantPart := if n = 1 then String.mk ds
      else String.mk (ds.take 1) ++ "." ++ String.mk (ds.drop 1)
    let ea := toString (if cE < 0 then (-cE).toNat else cE.toNat)
    let ea := if ea.length < 2 then "0" ++ ea else ea
    mantPart ++ "e" ++ (if cE < 0 then "-" else "+") ++ ea
  else if (n : Int) - 1 ≤ cE then
    String.mk ds ++ String.mk (List.replicate (cE - (n : Int) + 1).toNat '0') ++ ".0"
  else if 0 ≤ cE then
    String.mk (ds.take (cE.toNat + 1)) ++ "." ++ String.mk (ds.drop (cE.toNat + 1))
  else
    "0." ++ String.mk (List.replicate ((-cE).toNat - 1) '0') ++ String.mk ds

/-- Model of Python `str` (= `repr`) on a float: shortest round-trip
rendering with CPython's formatting rules; signed zero prints as `0.0` or
`-0.0`. -/
def pyFloatStr : PyFloat → String
  | PyFloat.finite neg m e2 =>
    if m = 0 then (if neg then "-0.0" else "0.0")
    else
      let t := shortestDigits m e2
      (if neg then "-" else "") ++ formatDigits t.1 t.2.1 t.2.2
  | PyFloat.inf => "inf"
  | PyFloat.ninf => "-inf"
  | PyFloat.nan => "nan"

/-- The binary64 value Flask's JSON layer produces for the decimal literal
`mant / 10 ^ exp` of a JSON number (conversion happens when the request
body is parsed; only `str` is ever applied to it afterwards). -/
def jsonFloat (mant : Int) (exp : Nat) : PyFloat :=
  float64OfDec (decide (mant < 0)) mant.natAbs (-(exp : Int))

/-- Digit list to the natural number it denotes. -/
def digitsVal (ds : List Char) : Nat := ds.foldl (fun a c => a * 10 + (c.toNat - 48)) 0

/-- Consume a run of decimal digits, allowing a single underscore between two
digits (CPython numeric-literal rule); returns consumed digits (underscores
removed) and the rest. -/
def digitsLoop (acc : List Char) : List Char → (List Char × List Char)
  | [] => (acc, [])
  | c :: t =>
    if c.isDigit then digitsLoop (acc ++ [c]) t
    else if c = '_' then
      match t with
      | d :: t' => if d.isDigit then digitsLoop (acc ++ [d]) t' else (acc, c :: t)
      | [] => (acc, [c])
    else (acc, c :: t)

/-- Take a maximal leading digit run (with underscores); empty result when the
input does not start with a digit. -/
def takeDigits (l : List Char) : (List Char × List Char) :=
  match l with
  | c :: t => if c.isDigit then digitsLoop [c] t else ([], l)
  | [] => ([], [])

/-- Parse an optional sign, returning the sign and the rest. -/
def takeSign (l : List Char) : (Int × List Char) :=
  match l with
  | c :: t => if c = '+' then (1, t) else if c = '-' then (-1, t) else (1, c :: t)
  | [] => (1, [])

/-- Model of CPython `float(s)`: strip, case-insensitive `inf`/`infinity`/`nan`,
or a decimal literal with optional fraction and exponent. `none` models
`ValueError`. -/
def pyFloatOfString (s : String) : Option PyFloat :=
  let l := (pyLower (pyStrip s)).data
  let sl := takeSign l
  let sgn := sl.1
  let l := sl.2
  if l = ("inf".data) ∨ l = ("infinity".data) then
    some (if sgn < 0 then PyFloat.ninf else PyFloat.inf)
  else if l = ("nan".data) then some PyFloat.nan
  else
    let ipr := takeDigits l
    let ip := ipr.1
    let l1 := ipr.2
    let fpr : (Bool × List Char × List Char) :=
      match l1 with
      | '.' :: t =>
        let p := takeDigits t
        (true, p.1, p.2)
      | _ => (false, [], l1)
    let fp := fpr.2.1
    let l2 := fpr.2.2
    if ip = [] ∧ fp = [] then none
    else
      let er : Option (Int × List Char) :=
        match l2 with
        | 'e' :: t =>
          let st := takeSign t
          let ed := takeDigits st.2
          if ed.1 = [] then none else some (st.1 * (digitsVal ed.1 : Int), ed.2)
        | rest => some (0, rest)
      match er with
      | none => none
      | some (e, l3) =>
        if l3 = [] then
          some (float64OfDec (decide (sgn < 0))
            (digitsVal ip * 10 ^ fp.length + digitsVal fp) (e - (fp.length : Int)))
        else none

/-! ## JSON payload values -/

/-- A JSON value as received by Flask's `request.get_json()`. Python `bool`
is a subclass of `int`, which matters for the `isinstance` checks. -/
inductive JVal where
  | jnull
  | jbool (b : Bool)
  | jint (n : Int)
  | jfloat (mant : Int) (exp : Nat)
  | jstr (s : String)
  | jlist (xs : List JVal)

mutual

/-- Model of Python `repr` for the values above (list elements). -/
def pyRepr : JVal → String
  | JVal.jnull => "None"
  | JVal.jbool b => if b then "True" else "False"
  | JVal.jint n => toString n
  | JVal.jfloat m e => pyFloatStr (jsonFloat m e)
  | JVal.jstr s => "\x27" ++ s ++ "\x27"
  | JVal.jlist xs => "[" ++ String.intercalate ", " (pyReprList xs) ++ "]"

/-- `repr` of every element of a list. -/
def pyReprList : List JVal → List String
  | [] => []
  | v :: vs => pyRepr v :: pyReprList vs

end

/-- Model of Python `str` on a JSON value. -/
def pyStr : JVal → String
  | JVal.jnull => "None"
  | JVal.jbool b => if b then "True" else "False"
  | JVal.jint n => toString n
  | JVal.jfloat m e => pyFloatStr (jsonFloat m e)
  | JVal.jstr s => s
  | JVal.jlist xs => "[" ++ String.intercalate ", " (pyReprList xs) ++ "]"

/-- Model of `_safe_str` applied to `data.get(...)`: `None`/missing becomes
the empty string, anything else is `str(v).strip()`. -/
def safeStr : Option JVal → String
  | none => ""
  | some JVal.jnull => ""
  | some v => pyStrip (pyStr v)

/-- The integer behind a value for which `isinstance(v, int)` holds
(`bool` is a subclass of `int` in Python). -/
def jvalAsInt : JVal → Option Int
  | JVal.jint n => some n
  | JVal.jbool b => some (if b then 1 else 0)
  | _ => none

/-- Whether `isinstance(v, list)` holds for an optional payload field. -/
def isJList : Option JVal → Bool
  | some (JVal.jlist _) => true
  | _ => false

/-- Whether `isinstance(v, (int, float))` holds. -/
def jvalIsNumber : JVal → Bool
  | JVal.jint _ => true
  | JVal.jbool _ => true
  | JVal.jfloat _ _ => true
  | _ => false

/-- `str(v)` after the `isinstance(v, (int, float))` test succeeded. -/
def jvalNumberStr : JVal → String
  | JVal.jint n => toString n
  | JVal.jbool b => if b then "True" else "False"
  | JVal.jfloat m e => pyFloatStr (jsonFloat m e)
  | _ => ""

/-! ## Survey data model (dataclasses of src/app.py) -/

/-- Models the Python dataclass `Option` of src/app.py (the name `Option` is
taken by Lean's core library). -/
structure Opt where
  idx : Nat
  text : String
  next_qid : Option String := none
  deriving DecidableEq

/-- Models the Python dataclass `Question`. -/
structure Question where
  qid : String
  qtype : String
  title : String
  text : String
  long_text : String
  hints : String
  options : List Opt
  next_id : Option String
  deriving DecidableEq

/-- Models the Python dataclass `Survey`. -/
structure Survey where
  key : String
  file_name : String
  title : String
  description : String
  start_qid : String
  final_title : String
  final_text : String
  questions : List (String × Question)

/-! ## Branching engine (`api_answer`) -/

/-- One entry of the client-carried answer accumulator. -/
structure AnswerRec where
  qid : String
  question_title : String
  question_text : String
  qtype : String
  value_text : String
  deriving DecidableEq

/-- The JSON body of a `POST .../answer` request. -/
structure ReqData where
  qid : Option JVal := none
  answers : Option (List AnswerRec) := none
  option_idx : Option JVal := none
  option_idxs : Option JVal := none
  value : Option JVal := none

/-- The observable outcome of `api_answer`: an error body with its HTTP
status, a finished response, or an advance response. -/
inductive ApiResult where
  | err (code : String) (status : Nat)
  | finished (final_title final_text : String) (answers : List AnswerRec)
  | advanced (next_qid : String) (answers : List AnswerRec)
  deriving DecidableEq

/-- Model of `_answers_to_text`: one `title: value` line per record, with the
Python `or` fallbacks, joined by newlines. -/
def answersToText (answers : List AnswerRec) : String :=
  String.intercalate "\n"
    (answers.map (fun a =>
      let qtitle := if a.question_title ≠ "" then a.question_title
                    else if a.qid ≠ "" then a.qid else "Вопрос"
      qtitle ++ ": " ++ a.value_text))

/-- The tail of `api_answer` after a successful evaluation: finish when the
resolved next id is falsy, 500 when it is unknown, advance otherwise. -/
def finishOrAdvance (s : Survey) (next_qid : Option String) (answers : List AnswerRec) : ApiResult :=
  match next_qid with
  | none =>
    ApiResult.finished s.final_title
      (pyReplace s.final_text "{answers}" (answersToText answers)) answers
  | some n =>
    if n = "" then
      ApiResult.finished s.final_title
        (pyReplace s.final_text "{answers}" (answersToText answers)) answers
    else if dictHasKey s.questions n then ApiResult.advanced n answers
    else ApiResult.err "next_question_missing" 500

/-- Append the Answer record for a successful evaluation and resolve the next
id (the shared success path of `api_answer`). -/
def answerStep (s : Survey) (q : Question) (qid : String) (answers : List AnswerRec)
    (value_text : String) (next_qid : Option String) : ApiResult :=
  finishOrAdvance s next_qid
    (answers ++ [{ qid := qid, question_title := q.title, question_text := q.text,
                   qtype := q.qtype, value_text := value_text }])

/-- Python `sorted(set(l))` on integers. -/
def insSorted (x : Int) : List Int → List Int
  | [] => [x]
  | y :: t => if x ≤ y then x :: y :: t else y :: insSorted x t

/-- Ascending duplicate-free version of a list (`sorted(set(l))`). -/
def pySortedSet (l : List Int) : List Int := l.dedup.foldr insSorted []

/-- The per-type evaluation of `api_answer`, after the question was found:
validate the payload for the question's type, compute the rendered value and
the next id, and finish the request. -/
def typeDispatch (s : Survey) (data : ReqData) (q : Question) (qid : String)
    (answers : List AnswerRec) : ApiResult :=
  if q.qtype = "single" then
        match data.option_idx with
        | some v =>
          match jvalAsInt v with
          | none => ApiResult.err "bad_request" 400
          | some i =>
            match q.options.find? (fun o => (o.idx : Int) = i) with
            | none => ApiResult.err "invalid_option" 400
            | some opt => answerStep s q qid answers opt.text opt.next_qid
        | none => ApiResult.err "bad_request" 400
      else if q.qtype = "multi" then
        match data.option_idxs with
        | some (JVal.jlist xs) =>
          match xs.mapM jvalAsInt with
          | none => ApiResult.err "bad_request" 400
          | some is0 =>
            let is1 := pySortedSet is0
            let chosen := (q.options.filter (fun o => is1.contains (o.idx : Int))).map (fun o => o.text)
            if chosen.isEmpty then ApiResult.err "no_selection" 400
            else answerStep s q qid answers (String.intercalate ", " chosen) q.next_id
        | _ => ApiResult.err "bad_request" 400
      else if q.qtype = "text" then
        let v := safeStr data.value
        if v = "" then ApiResult.err "empty_value" 400
        else answerStep s q qid answers v q.next_id
      else if q.qtype = "number" then
        match data.value with
        | some v =>
          if jvalIsNumber v then answerStep s q qid answers (jvalNumberStr v) q.next_id
          else
            match pyFloatOfString (safeStr (some v)) with
            | some f => answerStep s q qid answers (pyFloatStr f) q.next_id
            | none => ApiResult.err "bad_number" 400
        | none =>
          match pyFloatOfString (safeStr none) with
          | some f => answerStep s q qid answers (pyFloatStr f) q.next_id
          | none => ApiResult.err "bad_number" 400
      else ApiResult.err "unsupported_type" 500

/-- Model of the `api_answer` route handler, after the survey key was
resolved (`get_survey_or_404` is routing glue). -/
def apiAnswer (s : Survey) (data : ReqData) : ApiResult :=
  if safeStr data.qid = "" then ApiResult.err "bad_request" 400
  else
    match dictGet? s.questions (safeStr data.qid) with
    | none => ApiResult.err "question_not_found" 404
    | some q => typeDispatch s data q (safeStr data.qid) (data.answers.getD [])

/-! ## Definition parser (`load_survey_from_excel`)

The pandas I/O (sheet reading, column-presence check, selection of the
`RowType=survey` row) is external glue; the embedding starts from the cell
contents of the one survey-metadata row and of the `RowType=question` rows,
in source order. A missing cell (NaN) is `none`. -/

/-- Model of `_safe_str` on a spreadsheet cell. -/
def safeCell : Option String → String
  | none => ""
  | some s => pyStrip s

/-- Model of `_norm`: strip then lower-case. -/
def normStr (s : String) : String := pyLower (pyStrip s)

/-- The cells of the `RowType=survey` metadata row. -/
structure MetaRow where
  survey_title : Option String := none
  survey_desc : Option String := none
  start_qid : Option String := none
  final_title : Option String := none
  final_text : Option String := none

/-- The cells of one `RowType=question` row. `answerCells i` is the
`Answer{i}` cell and `nextIfCells i` the `NextIfAnswer{i}` cell. -/
structure QuestionRow where
  id : Option String := none
  title : Option String := none
  text : Option String := none
  long_text : Option String := none
  hints : Option String := none
  qtype : Option String := none
  next_id : Option String := none
  answerCells : Nat → Option String := fun _ => none
  nextIfCells : Nat → Option String := fun _ => none

/-- The normalized question type of a row (`_norm(_safe_str(r.get(COL_TYPE)))`). -/
def rowQType (r : QuestionRow) : String := normStr (safeCell r.qtype)

/-- Gather the options of a question row: slots 1..10, a slot contributes
exactly when its answer text is non-empty. -/
def buildOptions (r : QuestionRow) : List Opt :=
  (List.range' 1 10).foldl
    (fun opts i =>
      let a := safeCell (r.answerCells i)
      let n := safeCell (r.nextIfCells i)
      if a ≠ "" then opts ++ [{ idx := i, text := a, next_qid := if n = "" then none else some n }]
      else opts)
    []

/-- The `Question` value built from a row that passed validation. -/
def buildQuestion (r : QuestionRow) : Question :=
  { qid := safeCell r.id
    qtype := rowQType r
    title := safeCell r.title
    text := safeCell r.text
    long_text := safeCell r.long_text
    hints := safeCell r.hints
    options := buildOptions r
    next_id := if safeCell r.next_id = "" then none else some (safeCell r.next_id) }

/-- One iteration of the question loop of `load_survey_from_excel`: skip a
row with an empty id, fail on an invalid type or on a choice question
without options, otherwise assign into the question dict. -/
def processRow (fileName : String) (d : List (String × Question)) (r : QuestionRow) :
    Except String (List (String × Question)) :=
  if safeCell r.id = "" then Except.ok d
  else if ¬ (rowQType r = "single" ∨ rowQType r = "multi" ∨ rowQType r = "text" ∨
      rowQType r = "number") then
    Except.error (fileName ++ ": question " ++ safeCell r.id ++ ": invalid Type=\x27" ++
      rowQType r ++ "\x27")
  else if (rowQType r = "single" ∨ rowQType r = "multi") ∧ buildOptions r = [] then
    Except.error (fileName ++ ": question " ++ safeCell r.id ++
      ": no answers provided (Answer1..Answer10)")
  else Except.ok (dictSet d (safeCell r.id) (buildQuestion r))

/-- The validity conditions `processRow` checks for one row in isolation:
the row is either skipped, or its type is one of the four known ones and a
choice question has at least one option. -/
def rowOk (r : QuestionRow) : Prop :=
  safeCell r.id = "" ∨
  ((rowQType r = "single" ∨ rowQType r = "multi" ∨ rowQType r = "text" ∨ rowQType r = "number") ∧
   ((rowQType r = "single" ∨ rowQType r = "multi") → buildOptions r ≠ []))

instance (r : QuestionRow) : Decidable (rowOk r) := by
  unfold rowOk
  infer_instance

/-- The pure accumulation of the question loop (proved below to agree with
the fallible fold whenever every row passes its own checks). -/
def buildQuestions (rows : List QuestionRow) (d0 : List (String × Question)) :
    List (String × Question) :=
  rows.foldl
    (fun d r => if safeCell r.id = "" then d else dictSet d (safeCell r.id) (buildQuestion r)) d0

/-- Model of `load_survey_from_excel` from the classified rows onward:
metadata defaults, the question loop, the zero-questions check and the
start-question fallback. -/
def loadSurveyFromRows (fileName key : String) (m : MetaRow) (rows : List QuestionRow) :
    Except String Survey :=
  match rows.foldlM (processRow fileName) [] with
  | Except.error e => Except.error e
  | Except.ok questions =>
    if questions.isEmpty then
      Except.error (fileName ++ ": no questions found (RowType=question)")
    else
      Except.ok
        { key := key
          file_name := fileName
          title := if safeCell m.survey_title = "" then key else safeCell m.survey_title
          description := safeCell m.survey_desc
          start_qid :=
            if safeCell m.start_qid = "" ∨ dictHasKey questions (safeCell m.start_qid) = false
            then dictFirstKey questions else safeCell m.start_qid
          final_title := if safeCell m.final_title = "" then "Готово" else safeCell m.final_title
          final_text :=
            if safeCell m.final_text = "" then "Спасибо! Ваши ответы:\n{answers}"
            else safeCell m.final_text
          questions := questions }

/-! ## Survey registry (`load_all_surveys`) -/

/-- Model of `_slugify` applied to the file's base name without extension:
whitespace runs become underscores, other characters outside
`A-Za-z0-9_-` are removed, an empty result falls back to `"survey"`. -/
def collapseWs : List Char → List Char
  | [] => []
  | c :: t =>
    if c.isWhitespace then '_' :: collapseWs (t.dropWhile Char.isWhitespace)
    else c :: collapseWs t
termination_by l => l.length
decreasing_by
  · have h : (t.dropWhile Char.isWhitespace).length ≤ t.length :=
      (List.dropWhile_sublist Char.isWhitespace).length_le
    simp only [List.length_cons]
    omega
  · simp only [List.length_cons]
    omega

/-- Whether a character survives the slug filter. -/
def slugChar (c : Char) : Bool :=
  ('A' ≤ c ∧ c ≤ 'Z') ∨ ('a' ≤ c ∧ c ≤ 'z') ∨ ('0' ≤ c ∧ c ≤ '9') ∨ c = '_' ∨ c = '-'

/-- `_slugify` on the extension-free base name. -/
def slugify (base : String) : String :=
  let b := String.mk ((collapseWs base.data).filter slugChar)
  if b = "" then "survey" else b

/-- The body of the `load_all_surveys` loop for one parsed survey: on a key
collision re-key with the suffix `_{len(surveys)+1}`, then assign. -/
def registerSurvey (surveys : List (String × Survey)) (s : Survey) : List (String × Survey) :=
  if dictHasKey surveys s.key then
    let key2 := s.key ++ "_" ++ toString (surveys.length + 1)
    let s2 := { s with key := key2 }
    dictSet surveys s2.key s2
  else dictSet surveys s.key s

/-- Model of `load_all_surveys` over the surveys parsed from the eligible
files, in directory-enumeration order. -/
def loadAllSurveys (ss : List Survey) : List (String × Survey) :=
  ss.foldl registerSurvey []

/-! ## Concrete fixtures used by witnesses and counterexamples -/

/-- A `single` question: `Yes` branches to Q2, `No` finishes. -/
def wQ1 : Question :=
  ⟨"Q1", "single", "T1", "X1", "", "", [⟨1, "Yes", some "Q2"⟩, ⟨2, "No", none⟩], none⟩

/-- A `multi` question with three options and shared next `Q3`. -/
def wQ2 : Question :=
  ⟨"Q2", "multi", "T2", "X2", "", "", [⟨1, "A", none⟩, ⟨2, "B", none⟩, ⟨3, "C", none⟩], some "Q3"⟩

/-- A `number` question that finishes. -/
def wQ3 : Question := ⟨"Q3", "number", "T3", "X3", "", "", [], none⟩

/-- A `text` question branching back to Q1. -/
def wQ4 : Question := ⟨"Q4", "text", "T4", "X4", "", "", [], some "Q1"⟩

/-- A well-formed concrete survey over the four questions above. -/
def wSurvey : Survey :=
  ⟨"k", "f.xlsx", "S", "", "Q1", "Done", "Thanks:\n{answers}",
   [("Q1", wQ1), ("Q2", wQ2), ("Q3", wQ3), ("Q4", wQ4)]⟩

/-- A `single` question whose only option names a next id `QX` that does not
exist in `cSurvey` below. -/
def cQ1 : Question := ⟨"Q1", "single", "T1", "X1", "", "", [⟨1, "Yes", some "QX"⟩], none⟩

/-- A survey whose single question has a dangling branch target. -/
def cSurvey : Survey :=
  ⟨"k", "f.xlsx", "S", "", "Q1", "Done", "Thanks:\n{answers}", [("Q1", cQ1)]⟩

/-- A survey whose derived key is `a` (for the registry collision scenario). -/
def aSurvey : Survey :=
  ⟨"a", "a.xlsx", "A", "", "Q1", "Done", "Thanks:\n{answers}", [("Q1", wQ1)]⟩

/-- A valid `single` question row (id `Q1`, two answer slots). -/
def rowQ1 : QuestionRow :=
  { id := some " Q1 ", qtype := some "Single", title := some "T1", text := some "X1",
    answerCells := fun i => if i = 1 then some "Yes" else if i = 2 then some "No" else none,
    nextIfCells := fun i => if i = 1 then some "Q2" else none }

/-- A valid `number` question row (id `Q2`). -/
def rowQ2 : QuestionRow := { id := some "Q2", qtype := some "number", next_id := some "Q1" }

/-- A question row whose id cell is blank after trimming. -/
def rowBlank : QuestionRow := { id := some "  " }

/-- A second row reusing id `Q1` with type `text` (for the duplicate-id
scenario). -/
def rowDup : QuestionRow := { id := some "Q1", qtype := some "text", title := some "T1b" }

/-- A metadata row that declares a start id `QX` naming no question. -/
def metaQX : MetaRow := { start_qid := some "QX" }

/-- The survey parsed from `metaQX` and the rows `rowBlank, rowQ1, rowQ2`. -/
def wParsed : Survey :=
  { key := "k"
    file_name := "f.xlsx"
    title := "k"
    description := ""
    start_qid := "Q1"
    final_title := "Готово"
    final_text := "Спасибо! Ваши ответы:\n{answers}"
    questions := [("Q1", buildQuestion rowQ1), ("Q2", buildQuestion rowQ2)] }

/-! ## Basic lemmas about the dict model -/

theorem dictHasKey_cons {α β : Type} [DecidableEq α] (p : α × β) (t : List (α × β)) (k : α) :
    dictHasKey (p :: t) k = (decide (p.1 = k) || dictHasKey t k) := by
  simp [dictHasKey]

theorem dictGet?_mapRepl_ne {α β : Type} [DecidableEq α] (t : List (α × β)) (k k' : α) (v : β)
    (hkk : k' ≠ k) :
    dictGet? (t.map (fun p => if p.1 = k then (k, v) else p)) k' = dictGet? t k' := by
  induction t with
  | nil => rfl
  | cons p t ih =>
    by_cases hp : p.1 = k
    · have hfp : (if p.1 = k then ((k : α), v) else p) = ((k : α), v) := if_pos hp
      have h1 : ¬ ((k : α) = k') := fun h => hkk h.symm
      have h2 : ¬ (p.1 = k') := fun h => hkk (by rw [hp] at h; exact h.symm)
      rw [List.map_cons, hfp]
      simpa [dictGet?, List.find?_cons, h1, h2] using ih
    · have hfp : (if p.1 = k then ((k : α), v) else p) = p := if_neg hp
      rw [List.map_cons, hfp]
      by_cases hpk' : p.1 = k'
      · simp [dictGet?, List.find?_cons, hpk']
      · simpa [dictGet?, List.find?_cons, hpk'] using ih

theorem dictGet?_mapRepl_eq {α β : Type} [DecidableEq α] (t : List (α × β)) (k : α) (v : β)
    (ht : dictHasKey t k = true) :
    dictGet? (t.map (fun p => if p.1 = k then (k, v) else p)) k = some v := by
  induction t with
  | nil => simp [dictHasKey] at ht
  | cons p t ih =>
    by_cases hp : p.1 = k
    · have hfp : (if p.1 = k then ((k : α), v) else p) = ((k : α), v) := if_pos hp
      rw [List.map_cons, hfp]
      simp [dictGet?, List.find?_cons]
    · have ht' : dictHasKey t k = true := by
        rw [dictHasKey_cons] at ht
        rcases Bool.or_eq_true_iff.mp ht with h | h
        · exact absurd (of_decide_eq_true h) hp
        · exact h
      have hfp : (if p.1 = k then ((k : α), v) else p) = p := if_neg hp
      rw [List.map_cons, hfp]
      simpa [dictGet?, List.find?_cons, hp] using ih ht'

theorem dictFind?_eq_none_of_not_hasKey {α β : Type} [DecidableEq α] (d : List (α × β)) (k : α)
    (hk : dictHasKey d k ≠ true) : d.find? (fun p => p.1 = k) = none := by
  rw [List.find?_eq_none]
  intro p hp hdec
  exact hk (List.any_eq_true.mpr ⟨p, hp, hdec⟩)

theorem dictGet?_set {α β : Type} [DecidableEq α] (d : List (α × β)) (k k' : α) (v : β) :
    dictGet? (dictSet d k v) k' = if k' = k then some v else dictGet? d k' := by
  by_cases hk : dictHasKey d k
  · by_cases hkk : k' = k
    · subst hkk
      simp only [dictSet, hk, if_pos, if_true]
      exact dictGet?_mapRepl_eq d k' v hk
    · simp only [dictSet, hk, if_pos, hkk, if_false]
      exact dictGet?_mapRepl_ne d k k' v hkk
  · have hnone := dictFind?_eq_none_of_not_hasKey d k hk
    by_cases hkk : k' = k
    · subst hkk
      simp [dictSet, hk, dictGet?, List.find?_append, hnone, List.find?]
    · have h2 : List.find? (fun p => decide (p.1 = k')) [(k, v)] = none := by
        simp [List.find?, Ne.symm hkk]
      simp only [dictSet, hk, if_neg, Bool.false_eq_true, not_false_iff, dictGet?,
        List.find?_append, h2, hkk, if_false]
      cases hfind : d.find? (fun p => decide (p.1 = k')) <;> simp

theorem dictKeys_set {α β : Type} [DecidableEq α] (d : List (α × β)) (k : α) (v : β) :
    dictKeys (dictSet d k v) = if dictHasKey d k then dictKeys d else dictKeys d ++ [k] := by
  simp only [dictSet, dictKeys]
  by_cases hk : dictHasKey d k
  · simp only [hk, if_pos, if_true, List.map_map]
    apply List.map_congr_left
    intro p _
    by_cases hp : p.1 = k <;> simp [Function.comp, hp]
  · simp [hk]

theorem dictHasKey_iff_mem_keys {α β : Type} [DecidableEq α] (d : List (α × β)) (k : α) :
    dictHasKey d k = true ↔ k ∈ dictKeys d := by
  simp only [dictHasKey, dictKeys, List.any_eq_true, List.mem_map, decide_eq_true_eq]

theorem dictKeys_nodup_set {α β : Type} [DecidableEq α] (d : List (α × β)) (k : α) (v : β)
    (h : (dictKeys d).Nodup) : (dictKeys (dictSet d k v)).Nodup := by
  rw [dictKeys_set]
  by_cases hk : dictHasKey d k
  · simpa [hk] using h
  · simp only [hk, if_neg, Bool.false_eq_true, not_false_iff]
    have hkm : k ∉ dictKeys d := fun hm =>
      (Bool.not_eq_true _).mpr (by simpa using hk) ((dictHasKey_iff_mem_keys d k).mpr hm)
    simpa [List.nodup_append] using ⟨h, hkm⟩

theorem dictSet_ne_nil {α β : Type} [DecidableEq α] (d : List (α × β)) (k : α) (v : β) :
    dictSet d k v ≠ [] := by
  simp only [dictSet]
  by_cases hk : dictHasKey d k
  · have hd : d ≠ [] := by
      intro h
      subst h
      simp [dictHasKey] at hk
    simp only [hk, if_pos, if_true]
    intro hmap
    exact hd (List.map_eq_nil_iff.mp hmap)
  · simp [hk]

theorem dictFirstKey_set {β : Type} (d : List (String × β)) (k : String) (v : β) (h : d ≠ []) :
    dictFirstKey (dictSet d k v) = dictFirstKey d := by
  match d, h with
  | p :: t, _ =>
    simp only [dictSet]
    by_cases hk : dictHasKey (p :: t) k
    · simp only [hk, if_pos, List.map_cons]
      by_cases hp : p.1 = k <;> simp [dictFirstKey, hp]
    · simp [hk, dictFirstKey]

/-! ## Lemmas about the replace scan (Result Formatter) -/

theorem hasOcc_cons (pat : List Char) (c : Char) (t : List Char) :
    hasOcc pat (c :: t) = (pat.isPrefixOf (c :: t) || hasOcc pat t) := rfl

theorem replaceL_of_not_hasOcc (pat rep l : List Char) (h : hasOcc pat l = false) :
    replaceL pat rep l = l := by
  induction l with
  | nil => simp [replaceL]
  | cons c t ih =>
    rw [hasOcc_cons, Bool.or_eq_false_iff] at h
    have h1 : ¬ (pat.isPrefixOf (c :: t) = true) := by
      rw [h.1]
      exact Bool.false_ne_true
    rw [replaceL, if_neg h1, ih h.2]

theorem replaceL_append_pat (pat rep post : List Char) (hne : pat ≠ []) :
    replaceL pat rep (pat ++ post) = rep ++ replaceL pat rep post := by
  match pat, hne with
  | p :: pt, _ =>
    rw [List.cons_append, replaceL]
    have hpre : (p :: pt).isPrefixOf (p :: (pt ++ post)) = true := by
      rw [List.isPrefixOf_iff_prefix]
      exact ⟨post, by simp⟩
    rw [if_pos hpre]
    have hlen : (p :: pt).length - 1 = pt.length := by simp
    rw [hlen, List.drop_left]

theorem hasOcc_of_isPrefixOf (pat l : List Char) (h : pat.isPrefixOf l = true) :
    hasOcc pat l = true := by
  cases l with
  | nil =>
    have : pat = [] := by
      rw [List.isPrefixOf_iff_prefix] at h
      exact List.prefix_nil.mp h
    simp [hasOcc, this]
  | cons c t => simp [hasOcc_cons, h]

theorem not_isPrefixOf_of_noBorder (pat pre post : List Char) (hnb : noBorderB pat = true)
    (hno : hasOcc pat pre = false) (hpre : pre ≠ []) :
    pat.isPrefixOf (pre ++ pat ++ post) = false := by
  by_contra hcon
  have h : pat.isPrefixOf (pre ++ pat ++ post) = true := by
    cases hb : pat.isPrefixOf (pre ++ pat ++ post)
    · exact absurd hb hcon
    · rfl
  rw [List.isPrefixOf_iff_prefix] at h
  rw [List.append_assoc] at h
  by_cases hle : pat.length ≤ pre.length
  · have hp2 : pat <+: pre :=
      List.prefix_of_prefix_length_le h (List.prefix_append pre (pat ++ post)) hle
    have : hasOcc pat pre = true :=
      hasOcc_of_isPrefixOf pat pre ((List.isPrefixOf_iff_prefix).mpr hp2)
    rw [this] at hno
    exact Bool.true_eq_false.mp hno
  · have hlt : pre.length < pat.length := Nat.lt_of_not_le hle
    obtain ⟨t, ht⟩ := h
    have hdrop := congrArg (List.drop pre.length) ht
    rw [List.drop_append_eq_append_drop] at hdrop
    have hsub : pre.length - pat.length = 0 := Nat.sub_eq_zero_of_le (Nat.le_of_lt hlt)
    rw [hsub, List.drop_zero, List.drop_left] at hdrop
    have hpref : (pat.drop pre.length) <+: pat := by
      apply List.prefix_of_prefix_length_le ⟨t, hdrop⟩ (List.prefix_append pat post)
      simp
    have hk : pre.length ∈ List.range pat.length := List.mem_range.mpr hlt
    have := List.all_eq_true.mp hnb _ hk
    have hk0 : pre.length ≠ 0 := by
      intro h0
      exact hpre (List.eq_nil_of_length_eq_zero h0)
    rw [decide_eq_false hk0, Bool.false_or, Bool.not_eq_true'] at this
    rw [(List.isPrefixOf_iff_prefix).mpr hpref] at this
    exact Bool.true_eq_false.mp this

theorem replaceL_subst (pat rep pre post : List Char) (hnb : noBorderB pat = true)
    (hne : pat ≠ []) (hno : hasOcc pat pre = false) :
    replaceL pat rep (pre ++ pat ++ post) = pre ++ rep ++ replaceL pat rep post := by
  induction pre with
  | nil => simpa using replaceL_append_pat pat rep post hne
  | cons c pr ih =>
    have hno' : pat.isPrefixOf (c :: pr) = false ∧ hasOcc pat pr = false := by
      rw [hasOcc_cons, Bool.or_eq_false_iff] at hno
      exact hno
    have hnp : pat.isPrefixOf ((c :: pr) ++ pat ++ post) = false :=
      not_isPrefixOf_of_noBorder pat (c :: pr) post hnb hno (by simp)
    have hstep : (c :: pr) ++ pat ++ post = c :: (pr ++ pat ++ post) := by simp
    rw [hstep] at hnp ⊢
    have hnp' : ¬ (pat.isPrefixOf (c :: (pr ++ pat ++ post)) = true) := by
      rw [hnp]
      exact Bool.false_ne_true
    rw [replaceL, if_neg hnp', ih hno'.2]
    simp

theorem string_data_append (a b : String) : (a ++ b).data = a.data ++ b.data := rfl

theorem placeholder_noBorder : noBorderB ("{answers}" : String).data = true := by decide

theorem placeholder_ne_nil : ("{answers}" : String).data ≠ [] := by decide

theorem pyReplace_of_not_hasOcc (t rep : String) (h : hasOccStr "{answers}" t = false) :
    pyReplace t "{answers}" rep = t := by
  apply String.ext
  exact replaceL_of_not_hasOcc _ _ _ h

theorem pyReplace_subst (pre post rep : String) (h1 : hasOccStr "{answers}" pre = false)
    (h2 : hasOccStr "{answers}" post = false) :
    pyReplace (pre ++ "{answers}" ++ post) "{answers}" rep = pre ++ rep ++ post := by
  apply String.ext
  show replaceL _ _ (pre ++ "{answers}" ++ post).data = (pre ++ rep ++ post).data
  rw [string_data_append, string_data_append, string_data_append, string_data_append]
  rw [replaceL_subst _ _ _ _ placeholder_noBorder placeholder_ne_nil h1]
  rw [replaceL_of_not_hasOcc _ _ _ h2]

theorem answersToText_of_titles (answers : List AnswerRec)
    (h : ∀ a ∈ answers, a.question_title ≠ "") :
    answersToText answers =
      String.intercalate "\n" (answers.map (fun a => a.question_title ++ ": " ++ a.value_text)) := by
  unfold answersToText
  congr 1
  apply List.map_congr_left
  intro a ha
  simp [h a ha]

/-! ## Lemmas about `sorted(set(...))` -/

theorem mem_insSorted (x a : Int) (l : List Int) : a ∈ insSorted x l ↔ a = x ∨ a ∈ l := by
  induction l with
  | nil => simp [insSorted]
  | cons y t ih =>
    by_cases hxy : x ≤ y
    · simp [insSorted, hxy]
    · simp only [insSorted, hxy, if_neg, not_false_iff, List.mem_cons, ih]
      tauto

theorem mem_pySortedSet (a : Int) (l : List Int) : a ∈ pySortedSet l ↔ a ∈ l := by
  have key : ∀ m : List Int, a ∈ m.foldr insSorted [] ↔ a ∈ m := by
    intro m
    induction m with
    | nil => simp
    | cons x t ih => simp [List.foldr_cons, mem_insSorted, ih]
  unfold pySortedSet
  rw [key, List.mem_dedup]

theorem contains_pySortedSet (a : Int) (l : List Int) :
    (pySortedSet l).contains a = l.contains a := by
  show (pySortedSet l).elem a = l.elem a
  by_cases h : a ∈ l
  · rw [List.elem_eq_true_of_mem h, List.elem_eq_true_of_mem ((mem_pySortedSet a l).mpr h)]
  · have h2 : a ∉ pySortedSet l := fun hm => h ((mem_pySortedSet a l).mp hm)
    cases hc : (pySortedSet l).elem a
    · cases hc2 : l.elem a
      · rfl
      · exact absurd (List.mem_of_elem_eq_true hc2) h
    · exact absurd (List.mem_of_elem_eq_true hc) h2

/-! ## Lemmas about the question loop of the parser -/

theorem processRow_skip (f : String) (d : List (String × Question)) (r : QuestionRow)
    (h : safeCell r.id = "") : processRow f d r = Except.ok d := by
  simp [processRow, h]

theorem processRow_eq_ok (f : String) (d : List (String × Question)) (r : QuestionRow)
    (h : rowOk r) :
    processRow f d r =
      Except.ok (if safeCell r.id = "" then d
                 else dictSet d (safeCell r.id) (buildQuestion r)) := by
  rcases h with hid | ⟨htype, hopts⟩
  · simp [processRow, hid]
  · by_cases hid : safeCell r.id = ""
    · simp [processRow, hid]
    · by_cases hsm : rowQType r = "single" ∨ rowQType r = "multi"
      · simp [processRow, hid, htype, hopts hsm]
      · simp [processRow, hid, htype, hsm]

theorem processRow_ok_cases (f : String) (d : List (String × Question)) (r : QuestionRow)
    (d' : List (String × Question)) (h : processRow f d r = Except.ok d') :
    (safeCell r.id = "" ∧ d' = d) ∨
    (safeCell r.id ≠ "" ∧ d' = dictSet d (safeCell r.id) (buildQuestion r)) := by
  rw [processRow] at h
  split_ifs at h with h1 h2 h3 <;> cases h
  · exact Or.inl ⟨h1, rfl⟩
  · exact Or.inr ⟨h1, rfl⟩

theorem buildOptions_foldl_pairwise (r : QuestionRow) (l : List Nat) :
    ∀ acc : List Opt, l.Pairwise (fun a b => a < b) →
      (∀ o ∈ acc, ∀ i ∈ l, o.idx < i) →
      acc.Pairwise (fun a b => a.idx < b.idx) →
      (l.foldl
        (fun opts i =>
          let a := safeCell (r.answerCells i)
          let n := safeCell (r.nextIfCells i)
          if a ≠ "" then
            opts ++ [{ idx := i, text := a, next_qid := if n = "" then none else some n }]
          else opts)
        acc).Pairwise (fun a b => a.idx < b.idx) := by
  induction l with
  | nil => exact fun acc _ _ hacc => hacc
  | cons i t ih =>
    intro acc hl hbound hacc
    rw [List.foldl_cons]
    have hl' : t.Pairwise (fun a b => a < b) := (List.pairwise_cons.mp hl).2
    have hit : ∀ j ∈ t, i < j := (List.pairwise_cons.mp hl).1
    by_cases ha : safeCell (r.answerCells i) ≠ ""
    · rw [if_pos ha]
      apply ih
      · exact hl'
      · intro o ho j hj
        rcases List.mem_append.mp ho with h | h
        · exact hbound o h j (List.mem_cons_of_mem i hj)
        · rcases List.mem_singleton.mp h with rfl
          exact hit j hj
      · rw [List.pairwise_append]
        refine ⟨hacc, List.pairwise_singleton _ _, ?_⟩
        intro o ho o' ho'
        rcases List.mem_singleton.mp ho' with rfl
        exact hbound o ho i (List.mem_cons_self i t)
    · rw [if_neg ha]
      exact ih acc hl' (fun o ho j hj => hbound o ho j (List.mem_cons_of_mem i hj)) hacc

theorem buildOptions_sorted (r : QuestionRow) :
    (buildOptions r).Pairwise (fun a b => a.idx < b.idx) := by
  unfold buildOptions
  apply buildOptions_foldl_pairwise r (List.range' 1 10) []
  · have := List.pairwise_lt_range' 1 10
    exact this
  · intro o ho
    cases ho
  · exact List.Pairwise.nil

theorem buildQuestion_options_sorted (r : QuestionRow) :
    (buildQuestion r).options.Pairwise (fun a b => a.idx < b.idx) :=
  buildOptions_sorted r

theorem foldlM_processRow_ok (f : String) (rows : List QuestionRow)
    (h : ∀ r ∈ rows, rowOk r) :
    ∀ d0, rows.foldlM (processRow f) d0 = Except.ok (buildQuestions rows d0) := by
  induction rows with
  | nil => intro d0; rfl
  | cons r rest ih =>
    intro d0
    have hr : rowOk r := h r (List.mem_cons_self r rest)
    have hrest : ∀ x ∈ rest, rowOk x := fun x hx => h x (List.mem_cons_of_mem r hx)
    rw [List.foldlM_cons, processRow_eq_ok f d0 r hr]
    show Except.bind _ _ = _
    rw [Except.bind]
    exact ih hrest _

theorem buildQuestions_ne_nil (rows : List QuestionRow) (d0 : List (String × Question))
    (h : d0 ≠ []) : buildQuestions rows d0 ≠ [] := by
  induction rows generalizing d0 with
  | nil => exact h
  | cons r rest ih =>
    show buildQuestions rest _ ≠ []
    by_cases hid : safeCell r.id = ""
    · simpa [buildQuestions, List.foldl_cons, hid] using ih d0 h
    · simpa [buildQuestions, List.foldl_cons, hid] using
        ih _ (dictSet_ne_nil d0 (safeCell r.id) (buildQuestion r))

theorem buildQuestions_firstKey (rows : List QuestionRow) (d0 : List (String × Question))
    (h : d0 ≠ []) : dictFirstKey (buildQuestions rows d0) = dictFirstKey d0 := by
  induction rows generalizing d0 with
  | nil => rfl
  | cons r rest ih =>
    by_cases hid : safeCell r.id = ""
    · simpa [buildQuestions, List.foldl_cons, hid] using ih d0 h
    · have hset := dictFirstKey_set d0 (safeCell r.id) (buildQuestion r) h
      have hne := dictSet_ne_nil d0 (safeCell r.id) (buildQuestion r)
      have := ih _ hne
      simpa [buildQuestions, List.foldl_cons, hid, hset] using this

theorem buildQuestions_first_insert (rows : List QuestionRow) (r : QuestionRow)
    (hfind : rows.find? (fun x => !(safeCell x.id == "")) = some r) :
    dictFirstKey (buildQuestions rows []) = safeCell r.id ∧ buildQuestions rows [] ≠ [] := by
  induction rows with
  | nil => cases hfind
  | cons r0 rest ih =>
    by_cases hid : safeCell r0.id = ""
    · have hpred : (fun x : QuestionRow => !(safeCell x.id == "")) r0 = false := by
        simp [hid]
      rw [List.find?_cons_of_neg _ (by simp [hpred, hid])] at hfind
      have := ih hfind
      simpa [buildQuestions, List.foldl_cons, hid] using this
    · rw [List.find?_cons_of_pos _ (by simp [hid])] at hfind
      injection hfind with hr
      subst hr
      have hd1 : dictSet ([] : List (String × Question)) (safeCell r0.id) (buildQuestion r0) =
          [(safeCell r0.id, buildQuestion r0)] := by
        simp [dictSet, dictHasKey]
      constructor
      · have := buildQuestions_firstKey rest [(safeCell r0.id, buildQuestion r0)] (by simp)
        simpa [buildQuestions, List.foldl_cons, hid, hd1, dictFirstKey] using this
      · have := buildQuestions_ne_nil rest [(safeCell r0.id, buildQuestion r0)] (by simp)
        simpa [buildQuestions, List.foldl_cons, hid, hd1] using this

theorem buildQuestions_all_skip (rows : List QuestionRow)
    (h : ∀ r ∈ rows, safeCell r.id = "") : buildQuestions rows [] = [] := by
  induction rows with
  | nil => rfl
  | cons r rest ih =>
    have hid : safeCell r.id = "" := h r (List.mem_cons_self r rest)
    have hrest : ∀ x ∈ rest, safeCell x.id = "" := fun x hx => h x (List.mem_cons_of_mem r hx)
    simpa [buildQuestions, List.foldl_cons, hid] using ih hrest

theorem buildQuestions_keys_nodup (rows : List QuestionRow) (d0 : List (String × Question))
    (h : (dictKeys d0).Nodup) : (dictKeys (buildQuestions rows d0)).Nodup := by
  induction rows generalizing d0 with
  | nil => exact h
  | cons r rest ih =>
    by_cases hid : safeCell r.id = ""
    · simpa [buildQuestions, List.foldl_cons, hid] using ih d0 h
    · simpa [buildQuestions, List.foldl_cons, hid] using
        ih _ (dictKeys_nodup_set d0 (safeCell r.id) (buildQuestion r) h)

theorem buildQuestions_get? (rows : List QuestionRow) (d0 : List (String × Question))
    (k : String) (hk : k ≠ "") :
    dictGet? (buildQuestions rows d0) k =
      (match rows.reverse.find? (fun r => safeCell r.id == k) with
       | some r => some (buildQuestion r)
       | none => dictGet? d0 k) := by
  induction rows generalizing d0 with
  | nil => rfl
  | cons r rest ih =>
    have hrev : (r :: rest).reverse = rest.reverse ++ [r] := by simp
    rw [hrev, List.find?_append]
    by_cases hid : safeCell r.id = ""
    · have hstep : buildQuestions (r :: rest) d0 = buildQuestions rest d0 := by
        simp [buildQuestions, List.foldl_cons, hid]
      have hpred : List.find? (fun x : QuestionRow => safeCell x.id == k) [r] = none := by
        have : (safeCell r.id == k) = false := by
          rw [hid]
          exact beq_false_of_ne (Ne.symm hk)
        simp [List.find?, this]
      rw [hstep, ih d0, hpred]
      cases hfr : rest.reverse.find? (fun r => safeCell r.id == k) <;> simp
    · have hstep : buildQuestions (r :: rest) d0 =
          buildQuestions rest (dictSet d0 (safeCell r.id) (buildQuestion r)) := by
        simp [buildQuestions, List.foldl_cons, hid]
      rw [hstep, ih _]
      cases hfr : rest.reverse.find? (fun r => safeCell r.id == k) with
      | some r' => simp
      | none =>
        simp only [Option.none_or]
        rw [dictGet?_set]
        by_cases hkk : k = safeCell r.id
        · have : (safeCell r.id == k) = true := beq_iff_eq.mpr hkk.symm
          simp [List.find?, this, hkk]
        · have : (safeCell r.id == k) = false := beq_false_of_ne (fun h => hkk h.symm)
          simp [List.find?, this, hkk]

theorem foldlM_ok_eq_buildQuestions (f : String) (rows : List QuestionRow) :
    ∀ d0 Q, rows.foldlM (processRow f) d0 = Except.ok Q → Q = buildQuestions rows d0 := by
  induction rows with
  | nil =>
    intro d0 Q h
    cases h
    rfl
  | cons r rest ih =>
    intro d0 Q h
    rw [List.foldlM_cons] at h
    cases hstep : processRow f d0 r with
    | error e =>
      rw [hstep] at h
      cases h
    | ok d1 =>
      rw [hstep] at h
      have h' : rest.foldlM (processRow f) d1 = Except.ok Q := h
      have hQ := ih d1 Q h'
      rcases processRow_ok_cases f d0 r d1 hstep with ⟨hid, rfl⟩ | ⟨hid, rfl⟩
      · simpa [buildQuestions, List.foldl_cons, hid] using hQ
      · simpa [buildQuestions, List.foldl_cons, hid] using hQ

theorem dictHasKey_firstKey {β : Type} (d : List (String × β)) (h : d ≠ []) :
    dictHasKey d (dictFirstKey d) = true := by
  match d, h with
  | p :: t, _ => simp [dictHasKey, dictFirstKey]

theorem loadSurvey_ok_inv (fileName key : String) (m : MetaRow) (rows : List QuestionRow)
    (s : Survey) (h : loadSurveyFromRows fileName key m rows = Except.ok s) :
    ∃ Q, rows.foldlM (processRow fileName) [] = Except.ok Q ∧ Q ≠ [] ∧ s.questions = Q ∧
      s.start_qid = (if safeCell m.start_qid = "" ∨ dictHasKey Q (safeCell m.start_qid) = false
                     then dictFirstKey Q else safeCell m.start_qid) := by
  rw [loadSurveyFromRows] at h
  cases hf : rows.foldlM (processRow fileName) [] with
  | error e =>
    rw [hf] at h
    cases h
  | ok Q =>
    rw [hf] at h
    simp only [] at h
    refine ⟨Q, rfl, ?_, ?_, ?_⟩
    · intro hn
      subst hn
      simp at h
    · by_cases hQ : Q.isEmpty = true
      · rw [if_pos hQ] at h
        cases h
      · rw [if_neg hQ] at h
        cases h
        rfl
    · by_cases hQ : Q.isEmpty = true
      · rw [if_pos hQ] at h
        cases h
      · rw [if_neg hQ] at h
        cases h
        rfl

theorem apiAnswer_eq_dispatch (s : Survey) (data : ReqData) (q : Question)
    (hqid : safeStr data.qid ≠ "")
    (hq : dictGet? s.questions (safeStr data.qid) = some q) :
    apiAnswer s data = typeDispatch s data q (safeStr data.qid) (data.answers.getD []) := by
  rw [apiAnswer, if_neg hqid, hq]

/-! ## Claim theorems -/

/-- C7: whenever a successful answer evaluation resolves a non-empty next id
that is not a key of the survey's question mapping, the engine reports the
server fault `next_question_missing` with HTTP status 500, and neither
advances nor finishes. -/
theorem c7_next_question_missing (s : Survey) (q : Question) (qid : String)
    (answers : List AnswerRec) (v : String) (n : String)
    (hn : n ≠ "") (hmiss : dictHasKey s.questions n = false) :
    answerStep s q qid answers v (some n) = ApiResult.err "next_question_missing" 500 ∧
    (∀ nq ans, answerStep s q qid answers v (some n) ≠ ApiResult.advanced nq ans) ∧
    (∀ ft fx ans, answerStep s q qid answers v (some n) ≠ ApiResult.finished ft fx ans) := by
  have hmain : answerStep s q qid answers v (some n) =
      ApiResult.err "next_question_missing" 500 := by
    simp [answerStep, finishOrAdvance, hn, hmiss]
  refine ⟨hmain, ?_, ?_⟩
  · intro nq ans hcon
    rw [hmain] at hcon
    cases hcon
  · intro ft fx ans hcon
    rw [hmain] at hcon
    cases hcon

/-- Witness for C7 at a concrete survey: the only option of `cSurvey`'s
question names the absent id `QX`. -/
theorem c7_witness :
    answerStep cSurvey cQ1 "Q1" [] "Yes" (some "QX") =
      ApiResult.err "next_question_missing" 500 :=
  (c7_next_question_missing cSurvey cQ1 "Q1" [] "Yes" "QX" (by decide) (by decide)).1

/-- C5 counterexample: with one survey registered under key `a`, a second
survey with derived key `a` is registered under `a_2`, not under the key
suffixed with the current registry size (which is 1, so the claim predicts
`a_1`). -/
theorem c5_counterexample :
    dictKeys (registerSurvey [("a", aSurvey)] aSurvey) = ["a", "a_2"] ∧
    dictKeys (registerSurvey [("a", aSurvey)] aSurvey) ≠ ["a", "a_1"] := by
  constructor
  · decide
  · decide

/-- C5 amended: on a key collision the survey is registered under the key
suffixed with the current registry size plus one, and that key differs from
the key the first instance holds. -/
theorem c5_collision_suffix (d : List (String × Survey)) (s : Survey)
    (h : dictHasKey d s.key = true) :
    registerSurvey d s =
      dictSet d (s.key ++ "_" ++ toString (d.length + 1))
        { s with key := s.key ++ "_" ++ toString (d.length + 1) } ∧
    s.key ++ "_" ++ toString (d.length + 1) ≠ s.key := by
  constructor
  · simp [registerSurvey, h]
  · intro heq
    have hlen := congrArg String.length heq
    rw [String.length_append, String.length_append] at hlen
    have h1 : ("_" : String).length = 1 := by decide
    omega

/-- Witness for C5 at a concrete registry state. -/
theorem c5_witness :
    registerSurvey [("a", aSurvey)] aSurvey =
      dictSet [("a", aSurvey)]
        (aSurvey.key ++ "_" ++ toString (([("a", aSurvey)] : List (String × Survey)).length + 1))
        { aSurvey with
          key := aSurvey.key ++ "_" ++
            toString (([("a", aSurvey)] : List (String × Survey)).length + 1) } ∧
    aSurvey.key ++ "_" ++ toString (([("a", aSurvey)] : List (String × Survey)).length + 1) ≠
      aSurvey.key :=
  c5_collision_suffix [("a", aSurvey)] aSurvey (by decide)

/-- C9: a question row whose id is blank is skipped without error and
without touching the accumulated questions; and when every question row is
blank (so zero valid questions exist), parsing fails with the
`no questions found` definition error instead of returning a Survey. -/
theorem c9_blank_rows (fileName : String) :
    (∀ (d : List (String × Question)) (r : QuestionRow), safeCell r.id = "" →
      processRow fileName d r = Except.ok d) ∧
    (∀ (key : String) (m : MetaRow) (rows : List QuestionRow),
      (∀ r ∈ rows, safeCell r.id = "") →
      loadSurveyFromRows fileName key m rows =
        Except.error (fileName ++ ": no questions found (RowType=question)")) := by
  constructor
  · exact fun d r h => processRow_skip fileName d r h
  · intro key m rows h
    have hfold := foldlM_processRow_ok fileName rows (fun r hr => Or.inl (h r hr)) []
    rw [buildQuestions_all_skip rows h] at hfold
    rw [loadSurveyFromRows, hfold]
    rfl

/-- Witness for C9: a row whose id cell is whitespace is skipped, and a
definition consisting only of such rows fails with the zero-questions
error. -/
theorem c9_witness :
    processRow "f.xlsx" [] rowBlank = Except.ok [] ∧
    loadSurveyFromRows "f.xlsx" "k" metaQX [rowBlank] =
      Except.error ("f.xlsx" ++ ": no questions found (RowType=question)") :=
  ⟨(c9_blank_rows "f.xlsx").1 [] rowBlank (by decide),
   (c9_blank_rows "f.xlsx").2 "k" metaQX [rowBlank] (by decide)⟩

/-- C10: when several rows share one non-empty id, the question loop raises
no error (given each row passes its own checks), the resulting mapping has
pairwise-distinct keys, and each key maps to the question built from the
last row carrying that id. -/
theorem c10_duplicate_ids_last_wins (fileName : String) (rows : List QuestionRow)
    (h : ∀ r ∈ rows, rowOk r) :
    rows.foldlM (processRow fileName) [] = Except.ok (buildQuestions rows []) ∧
    (dictKeys (buildQuestions rows [])).Nodup ∧
    (∀ k, k ≠ "" → dictGet? (buildQuestions rows []) k =
      (rows.reverse.find? (fun r => safeCell r.id == k)).map buildQuestion) := by
  refine ⟨foldlM_processRow_ok fileName rows h [],
    buildQuestions_keys_nodup rows [] (by simp [dictKeys]), ?_⟩
  intro k hk
  have hchar := buildQuestions_get? rows [] k hk
  cases hf : rows.reverse.find? (fun r => safeCell r.id == k) with
  | some r =>
    rw [hf] at hchar
    simpa using hchar
  | none =>
    rw [hf] at hchar
    simpa [dictGet?] using hchar

/-- Witness for C10: two rows with id `Q1` (a `single` row, then a `text`
row) parse without error into a one-key mapping holding the question from
the second row. -/
theorem c10_witness :
    ([rowQ1, rowDup] : List QuestionRow).foldlM (processRow "f.xlsx") [] =
      Except.ok (buildQuestions [rowQ1, rowDup] []) ∧
    (dictKeys (buildQuestions [rowQ1, rowDup] [])).Nodup ∧
    dictGet? (buildQuestions [rowQ1, rowDup] []) "Q1" = some (buildQuestion rowDup) := by
  have h := c10_duplicate_ids_last_wins "f.xlsx" [rowQ1, rowDup] (by decide)
  refine ⟨h.1, h.2.1, ?_⟩
  have h3 := h.2.2 "Q1" (by decide)
  rw [h3]
  rfl

/-- C3: a successfully parsed survey's start id is always a key of its
question mapping; when the declared start id is empty or unknown the parser
silently falls back to the first-encountered question id (in source order),
and otherwise it keeps the declared id. -/
theorem c3_start_fallback (fileName key : String) (m : MetaRow) (rows : List QuestionRow)
    (s : Survey) (h : loadSurveyFromRows fileName key m rows = Except.ok s) :
    dictHasKey s.questions s.start_qid = true ∧
    ((safeCell m.start_qid = "" ∨ dictHasKey s.questions (safeCell m.start_qid) = false) →
      s.start_qid = dictFirstKey s.questions ∧
      ∀ r, rows.find? (fun x => !(safeCell x.id == "")) = some r →
        s.start_qid = safeCell r.id) ∧
    (safeCell m.start_qid ≠ "" → dictHasKey s.questions (safeCell m.start_qid) = true →
      s.start_qid = safeCell m.start_qid) := by
  obtain ⟨Q, hfold, hQne, hq, hstart⟩ := loadSurvey_ok_inv fileName key m rows s h
  subst hq
  refine ⟨?_, ?_, ?_⟩
  · by_cases hc : safeCell m.start_qid = "" ∨ dictHasKey s.questions (safeCell m.start_qid) = false
    · rw [hstart, if_pos hc]
      exact dictHasKey_firstKey _ hQne
    · rw [hstart, if_neg hc]
      obtain ⟨h1, h2⟩ := not_or.mp hc
      cases hB : dictHasKey s.questions (safeCell m.start_qid)
      · exact absurd hB h2
      · rfl
  · intro hc
    have hQeq : s.questions = buildQuestions rows [] :=
      foldlM_ok_eq_buildQuestions fileName rows [] s.questions hfold
    constructor
    · rw [hstart, if_pos hc]
    · intro r hr
      rw [hstart, if_pos hc, hQeq]
      exact (buildQuestions_first_insert rows r hr).1
  · intro h1 h2
    have hc : ¬ (safeCell m.start_qid = "" ∨ dictHasKey s.questions (safeCell m.start_qid) = false) := by
      intro hor
      rcases hor with ha | hb
      · exact h1 ha
      · rw [h2] at hb
        cases hb
    rw [hstart, if_neg hc]

/-- Witness for C3: the declared start id `QX` names no question, so the
parsed survey starts at `Q1`, the first-encountered question id. -/
theorem c3_witness :
    dictHasKey wParsed.questions wParsed.start_qid = true ∧
    wParsed.start_qid = dictFirstKey wParsed.questions := by
  have h := c3_start_fallback "f.xlsx" "k" metaQX [rowBlank, rowQ1, rowQ2] wParsed (by rfl)
  exact ⟨h.1, (h.2.1 (by decide)).1⟩

/-- C4: substituting the accumulated answers into a finish template that
contains the placeholder once yields, at the placeholder location, exactly
one `title: value` line per record, newline-joined, in submission order;
a template without the placeholder renders unchanged. -/
theorem c4_render_roundtrip (answers : List AnswerRec) (pre post : String)
    (h1 : hasOccStr "{answers}" pre = false) (h2 : hasOccStr "{answers}" post = false)
    (h3 : ∀ a ∈ answers, a.question_title ≠ "") :
    pyReplace (pre ++ "{answers}" ++ post) "{answers}" (answersToText answers) =
      pre ++ String.intercalate "\n"
        (answers.map (fun a => a.question_title ++ ": " ++ a.value_text)) ++ post ∧
    (answers.map (fun a => a.question_title ++ ": " ++ a.value_text)).length = answers.length ∧
    (∀ t : String, hasOccStr "{answers}" t = false →
      pyReplace t "{answers}" (answersToText answers) = t) := by
  refine ⟨?_, List.length_map _ _, fun t ht => pyReplace_of_not_hasOcc t _ ht⟩
  rw [pyReplace_subst pre post _ h1 h2, answersToText_of_titles answers h3]

/-- Witness for C4 at a concrete template and one accumulated record. -/
theorem c4_witness :
    pyReplace ("Thanks:\n" ++ "{answers}" ++ "!") "{answers}"
        (answersToText [⟨"Q1", "T1", "X1", "single", "No"⟩]) =
      "Thanks:\n" ++ String.intercalate "\n"
        (([⟨"Q1", "T1", "X1", "single", "No"⟩] : List AnswerRec).map
          (fun a => a.question_title ++ ": " ++ a.value_text)) ++ "!" ∧
    (([⟨"Q1", "T1", "X1", "single", "No"⟩] : List AnswerRec).map
      (fun a => a.question_title ++ ": " ++ a.value_text)).length =
      ([⟨"Q1", "T1", "X1", "single", "No"⟩] : List AnswerRec).length ∧
    (∀ t : String, hasOccStr "{answers}" t = false →
      pyReplace t "{answers}" (answersToText [⟨"Q1", "T1", "X1", "single", "No"⟩]) = t) :=
  c4_render_roundtrip [⟨"Q1", "T1", "X1", "single", "No"⟩] "Thanks:\n" "!"
    (by decide) (by decide) (by decide)

/-- C1 counterexample: in `cSurvey` the matched option's next id `QX` is
non-empty but absent from the question mapping, so the engine returns the
500 fault `next_question_missing` instead of `AdvancedTo QX` as the claim
states. -/
theorem c1_counterexample :
    apiAnswer cSurvey { qid := some (JVal.jstr "Q1"), option_idx := some (JVal.jint 1) } =
      ApiResult.err "next_question_missing" 500 ∧
    apiAnswer cSurvey { qid := some (JVal.jstr "Q1"), option_idx := some (JVal.jint 1) } ≠
      ApiResult.advanced "QX" [⟨"Q1", "T1", "X1", "single", "Yes"⟩] := by
  constructor
  · decide
  · decide

/-- C1 amended: for a `single` question, a submitted option index matching
an existing Option is never rejected with a 400; the matched option's text
is recorded, the survey finishes when the option's own next id is empty,
advances to it when it names a question, and reports the 500 fault
`next_question_missing` when it is non-empty but unknown. -/
theorem c1_single_valid_index (s : Survey) (data : ReqData) (q : Question) (v : JVal)
    (i : Int) (opt : Opt)
    (hqid : safeStr data.qid ≠ "")
    (hq : dictGet? s.questions (safeStr data.qid) = some q)
    (ht : q.qtype = "single")
    (hv : data.option_idx = some v)
    (hi : jvalAsInt v = some i)
    (hfind : q.options.find? (fun o => (o.idx : Int) = i) = some opt) :
    apiAnswer s data =
      answerStep s q (safeStr data.qid) (data.answers.getD []) opt.text opt.next_qid ∧
    (∀ code, apiAnswer s data ≠ ApiResult.err code 400) ∧
    ((opt.next_qid = none ∨ opt.next_qid = some "") →
      apiAnswer s data = ApiResult.finished s.final_title
        (pyReplace s.final_text "{answers}"
          (answersToText (data.answers.getD [] ++
            [⟨safeStr data.qid, q.title, q.text, q.qtype, opt.text⟩])))
        (data.answers.getD [] ++ [⟨safeStr data.qid, q.title, q.text, q.qtype, opt.text⟩])) ∧
    (∀ n, opt.next_qid = some n → n ≠ "" → dictHasKey s.questions n = true →
      apiAnswer s data = ApiResult.advanced n
        (data.answers.getD [] ++ [⟨safeStr data.qid, q.title, q.text, q.qtype, opt.text⟩])) ∧
    (∀ n, opt.next_qid = some n → n ≠ "" → dictHasKey s.questions n = false →
      apiAnswer s data = ApiResult.err "next_question_missing" 500) := by
  have hmain : apiAnswer s data =
      answerStep s q (safeStr data.qid) (data.answers.getD []) opt.text opt.next_qid := by
    rw [apiAnswer_eq_dispatch s data q hqid hq]
    simp only [typeDispatch, ht, eq_self_iff_true, if_true, hv, hi, hfind]
  refine ⟨hmain, ?_, ?_, ?_, ?_⟩
  · intro code hcon
    rw [hmain, answerStep] at hcon
    cases hnq : opt.next_qid with
    | none =>
      rw [hnq] at hcon
      simp [finishOrAdvance] at hcon
    | some n =>
      rw [hnq] at hcon
      by_cases hn : n = ""
      · simp [finishOrAdvance, hn] at hcon
      · by_cases hk : dictHasKey s.questions n = true
        · simp [finishOrAdvance, hn, hk] at hcon
        · simp [finishOrAdvance, hn, hk] at hcon
  · intro hor
    rw [hmain, answerStep]
    rcases hor with h | h <;> rw [h] <;> simp [finishOrAdvance]
  · intro n hn hne hk
    rw [hmain, answerStep, hn]
    simp [finishOrAdvance, hne, hk]
  · intro n hn hne hk
    rw [hmain, answerStep, hn]
    simp [finishOrAdvance, hne, hk]

/-- Witness for C1 at `wSurvey`: submitting option 2 (`No`, empty next id)
of question Q1 finishes the survey with the option's text recorded. -/
theorem c1_witness :
    apiAnswer wSurvey { qid := some (JVal.jstr "Q1"), option_idx := some (JVal.jint 2) } =
      ApiResult.finished wSurvey.final_title
        (pyReplace wSurvey.final_text "{answers}"
          (answersToText [⟨"Q1", wQ1.title, wQ1.text, wQ1.qtype, "No"⟩]))
        [⟨"Q1", wQ1.title, wQ1.text, wQ1.qtype, "No"⟩] := by
  have h := c1_single_valid_index wSurvey
    { qid := some (JVal.jstr "Q1"), option_idx := some (JVal.jint 2) }
    wQ1 (JVal.jint 2) 2 ⟨2, "No", none⟩
    (by decide) (by rfl) (by rfl) (by rfl) (by rfl) (by rfl)
  exact h.2.2.1 (Or.inl rfl)

/-- C2: for a `multi` question, a list of integer indices containing at
least one match (plus any duplicates or non-matches) renders the
comma-joined texts of exactly the matching options — a duplicate-free
selection ascending by option index when the question's options are
(as the parser builds them) ascending by index — and routes through the
question's shared next id (empty meaning finish). -/
theorem c2_multi_valid (s : Survey) (data : ReqData) (q : Question) (xs : List JVal)
    (is : List Int)
    (hqid : safeStr data.qid ≠ "")
    (hq : dictGet? s.questions (safeStr data.qid) = some q)
    (ht : q.qtype = "multi")
    (hxs : data.option_idxs = some (JVal.jlist xs))
    (hmap : xs.mapM jvalAsInt = some is)
    (hsorted : q.options.Pairwise (fun a b => a.idx < b.idx))
    (hvalid : ∃ o ∈ q.options, (o.idx : Int) ∈ is) :
    apiAnswer s data =
      answerStep s q (safeStr data.qid) (data.answers.getD [])
        (String.intercalate ", "
          ((q.options.filter (fun o => is.contains (o.idx : Int))).map (fun o => o.text)))
        q.next_id ∧
    ((q.options.filter (fun o => is.contains (o.idx : Int))).map
      (fun o => o.idx)).Pairwise (fun a b => a < b) ∧
    (∀ o, o ∈ q.options.filter (fun o => is.contains (o.idx : Int)) ↔
      (o ∈ q.options ∧ (o.idx : Int) ∈ is)) ∧
    (q.next_id = none →
      apiAnswer s data = ApiResult.finished s.final_title
        (pyReplace s.final_text "{answers}"
          (answersToText (data.answers.getD [] ++
            [⟨safeStr data.qid, q.title, q.text, q.qtype,
              String.intercalate ", "
                ((q.options.filter (fun o => is.contains (o.idx : Int))).map
                  (fun o => o.text))⟩])))
        (data.answers.getD [] ++
          [⟨safeStr data.qid, q.title, q.text, q.qtype,
            String.intercalate ", "
              ((q.options.filter (fun o => is.contains (o.idx : Int))).map
                (fun o => o.text))⟩])) ∧
    (∀ n, q.next_id = some n → n ≠ "" → dictHasKey s.questions n = true →
      apiAnswer s data = ApiResult.advanced n
        (data.answers.getD [] ++
          [⟨safeStr data.qid, q.title, q.text, q.qtype,
            String.intercalate ", "
              ((q.options.filter (fun o => is.contains (o.idx : Int))).map
                (fun o => o.text))⟩])) := by
  have hfiltereq : q.options.filter (fun o => (pySortedSet is).contains (o.idx : Int)) =
      q.options.filter (fun o => is.contains (o.idx : Int)) :=
    List.filter_congr (fun o _ => contains_pySortedSet (o.idx : Int) is)
  have hselne : q.options.filter (fun o => is.contains (o.idx : Int)) ≠ [] := by
    obtain ⟨o, ho, hoi⟩ := hvalid
    intro hnil
    have hm : o ∈ q.options.filter (fun o => is.contains (o.idx : Int)) :=
      List.mem_filter.mpr ⟨ho, List.elem_eq_true_of_mem hoi⟩
    rw [hnil] at hm
    cases hm
  have hns : ¬ (q.qtype = "single") := by
    rw [ht]
    decide
  have hchne : ((q.options.filter (fun o => (pySortedSet is).contains (o.idx : Int))).map
      (fun o => o.text)).isEmpty ≠ true := by
    rw [hfiltereq]
    cases hsel : q.options.filter (fun o => is.contains (o.idx : Int)) with
    | nil => exact absurd hsel hselne
    | cons a l => simp
  have hmain : apiAnswer s data =
      answerStep s q (safeStr data.qid) (data.answers.getD [])
        (String.intercalate ", "
          ((q.options.filter (fun o => is.contains (o.idx : Int))).map (fun o => o.text)))
        q.next_id := by
    rw [apiAnswer_eq_dispatch s data q hqid hq, typeDispatch, if_neg hns]
    simp only [ht, eq_self_iff_true, if_true, hxs, hmap]
    rw [if_neg hchne, hfiltereq]
  refine ⟨hmain, ?_, ?_, ?_, ?_⟩
  · exact List.pairwise_map.mpr (hsorted.sublist (List.filter_sublist _))
  · intro o
    constructor
    · intro hm
      obtain ⟨h1, h2⟩ := List.mem_filter.mp hm
      exact ⟨h1, List.mem_of_elem_eq_true h2⟩
    · intro hm
      exact List.mem_filter.mpr ⟨hm.1, List.elem_eq_true_of_mem hm.2⟩
  · intro hn
    rw [hmain, answerStep, hn]
    simp [finishOrAdvance]
  · intro n hn hne hk
    rw [hmain, answerStep, hn]
    simp [finishOrAdvance, hne, hk]

/-- Witness for C2 at `wSurvey`: submitting `[3, 1, 3, 7]` to the `multi`
question Q2 records `A, C` and advances to Q3. -/
theorem c2_witness :
    apiAnswer wSurvey
      { qid := some (JVal.jstr "Q2"),
        option_idxs := some (JVal.jlist [JVal.jint 3, JVal.jint 1, JVal.jint 3, JVal.jint 7]) } =
      ApiResult.advanced "Q3"
        [⟨"Q2", wQ2.title, wQ2.text, wQ2.qtype,
          String.intercalate ", "
            ((wQ2.options.filter
              (fun o => ([3, 1, 3, 7] : List Int).contains (o.idx : Int))).map
              (fun o => o.text))⟩] := by
  have h := c2_multi_valid wSurvey
    { qid := some (JVal.jstr "Q2"),
      option_idxs := some (JVal.jlist [JVal.jint 3, JVal.jint 1, JVal.jint 3, JVal.jint 7]) }
    wQ2 [JVal.jint 3, JVal.jint 1, JVal.jint 3, JVal.jint 7] [3, 1, 3, 7]
    (by decide) (by rfl) (by rfl) (by rfl) (by rfl) (by decide)
    ⟨⟨1, "A", none⟩, by decide, by decide⟩
  exact h.2.2.2.2 "Q3" rfl (by decide) (by decide)

/-- C6: a `number` question accepts an integer or float payload, and a
string payload parsing as a float, rendering the value by Python `str` —
for a float, the shortest decimal that round-trips through the binary64
value the payload was converted to, in CPython's positional or scientific
format — and routing through the question's shared next id; a string
payload that does not parse is rejected with `bad_number` (HTTP 400). -/
theorem c6_number_payloads (s : Survey) (data : ReqData) (q : Question)
    (hqid : safeStr data.qid ≠ "")
    (hq : dictGet? s.questions (safeStr data.qid) = some q)
    (ht : q.qtype = "number") :
    (∀ n : Int, data.value = some (JVal.jint n) →
      apiAnswer s data =
        answerStep s q (safeStr data.qid) (data.answers.getD []) (toString n) q.next_id) ∧
    (∀ (xm : Int) (xe : Nat), data.value = some (JVal.jfloat xm xe) →
      apiAnswer s data =
        answerStep s q (safeStr data.qid) (data.answers.getD [])
          (pyFloatStr (jsonFloat xm xe)) q.next_id) ∧
    (∀ (str : String) (f : PyFloat), data.value = some (JVal.jstr str) →
      pyFloatOfString (pyStrip str) = some f →
      apiAnswer s data =
        answerStep s q (safeStr data.qid) (data.answers.getD []) (pyFloatStr f) q.next_id) ∧
    (∀ str : String, data.value = some (JVal.jstr str) →
      pyFloatOfString (pyStrip str) = none →
      apiAnswer s data = ApiResult.err "bad_number" 400) := by
  have hns : ¬ (q.qtype = "single") := by
    rw [ht]
    decide
  have hnm : ¬ (q.qtype = "multi") := by
    rw [ht]
    decide
  have hnt : ¬ (q.qtype = "text") := by
    rw [ht]
    decide
  have hdisp : apiAnswer s data = typeDispatch s data q (safeStr data.qid) (data.answers.getD []) :=
    apiAnswer_eq_dispatch s data q hqid hq
  refine ⟨?_, ?_, ?_, ?_⟩
  · intro n hv
    rw [hdisp, typeDispatch, if_neg hns, if_neg hnm, if_neg hnt]
    simp only [ht, eq_self_iff_true, if_true, hv]
    simp [jvalIsNumber, jvalNumberStr]
  · intro xm xe hv
    rw [hdisp, typeDispatch, if_neg hns, if_neg hnm, if_neg hnt]
    simp only [ht, eq_self_iff_true, if_true, hv]
    simp [jvalIsNumber, jvalNumberStr]
  · intro str f hv hparse
    rw [hdisp, typeDispatch, if_neg hns, if_neg hnm, if_neg hnt]
    simp only [ht, eq_self_iff_true, if_true, hv]
    have hsafe : safeStr (some (JVal.jstr str)) = pyStrip str := rfl
    simp [jvalIsNumber, hsafe, hparse]
  · intro str hv hparse
    rw [hdisp, typeDispatch, if_neg hns, if_neg hnm, if_neg hnt]
    simp only [ht, eq_self_iff_true, if_true, hv]
    have hsafe : safeStr (some (JVal.jstr str)) = pyStrip str := rfl
    simp [jvalIsNumber, hsafe, hparse]

/-- Witness for C6 at `wSurvey`: the string `" 2.50 "` parses to the
binary64 value 2.5 and renders `2.5`; `"0.00001"` renders in scientific
notation as `1e-05` exactly as CPython prints it; the non-numeric string
`x7` yields `bad_number`. -/
theorem c6_witness :
    (apiAnswer wSurvey { qid := some (JVal.jstr "Q3"), value := some (JVal.jstr " 2.50 ") } =
      answerStep wSurvey wQ3 "Q3" [] (pyFloatStr (float64OfDec false 250 (-2))) wQ3.next_id ∧
     pyFloatStr (float64OfDec false 250 (-2)) = "2.5") ∧
    (apiAnswer wSurvey { qid := some (JVal.jstr "Q3"), value := some (JVal.jstr "0.00001") } =
      answerStep wSurvey wQ3 "Q3" [] (pyFloatStr (float64OfDec false 1 (-5))) wQ3.next_id ∧
     pyFloatStr (float64OfDec false 1 (-5)) = "1e-05") ∧
    apiAnswer wSurvey { qid := some (JVal.jstr "Q3"), value := some (JVal.jstr "x7") } =
      ApiResult.err "bad_number" 400 := by
  refine ⟨⟨?_, by decide⟩, ⟨?_, by decide⟩, ?_⟩
  · have h := c6_number_payloads wSurvey
      { qid := some (JVal.jstr "Q3"), value := some (JVal.jstr " 2.50 ") }
      wQ3 (by decide) (by rfl) (by rfl)
    exact h.2.2.1 " 2.50 " (float64OfDec false 250 (-2)) rfl (by rfl)
  · have h := c6_number_payloads wSurvey
      { qid := some (JVal.jstr "Q3"), value := some (JVal.jstr "0.00001") }
      wQ3 (by decide) (by rfl) (by rfl)
    exact h.2.2.1 "0.00001" (float64OfDec false 1 (-5)) rfl (by rfl)
  · have h := c6_number_payloads wSurvey
      { qid := some (JVal.jstr "Q3"), value := some (JVal.jstr "x7") }
      wQ3 (by decide) (by rfl) (by rfl)
    exact h.2.2.2 "x7" rfl (by decide)

/-- C8: every client-side validation failure — a malformed payload, a
`single`/`multi` submission with no resolvable index, or a `text` value
empty after trimming — produces an error body with HTTP 400; such a
response carries no Answer record and echoes no accumulator, so the prior
answers are unchanged on the client. -/
theorem c8_rejection_no_state_change (s : Survey) (data : ReqData) :
    (safeStr data.qid = "" → apiAnswer s data = ApiResult.err "bad_request" 400) ∧
    (∀ q, safeStr data.qid ≠ "" → dictGet? s.questions (safeStr data.qid) = some q →
      ((q.qtype = "single" →
        (data.option_idx = none → apiAnswer s data = ApiResult.err "bad_request" 400) ∧
        (∀ v, data.option_idx = some v → jvalAsInt v = none →
          apiAnswer s data = ApiResult.err "bad_request" 400) ∧
        (∀ v i, data.option_idx = some v → jvalAsInt v = some i →
          q.options.find? (fun o => (o.idx : Int) = i) = none →
          apiAnswer s data = ApiResult.err "invalid_option" 400)) ∧
       (q.qtype = "multi" →
        (isJList data.option_idxs = false →
          apiAnswer s data = ApiResult.err "bad_request" 400) ∧
        (∀ xs, data.option_idxs = some (JVal.jlist xs) → xs.mapM jvalAsInt = none →
          apiAnswer s data = ApiResult.err "bad_request" 400) ∧
        (∀ xs is, data.option_idxs = some (JVal.jlist xs) → xs.mapM jvalAsInt = some is →
          q.options.filter (fun o => (pySortedSet is).contains (o.idx : Int)) = [] →
          apiAnswer s data = ApiResult.err "no_selection" 400)) ∧
       (q.qtype = "text" → safeStr data.value = "" →
         apiAnswer s data = ApiResult.err "empty_value" 400))) ∧
    (∀ code st, apiAnswer s data = ApiResult.err code st →
      (∀ ft fx ans, apiAnswer s data ≠ ApiResult.finished ft fx ans) ∧
      (∀ nq ans, apiAnswer s data ≠ ApiResult.advanced nq ans)) := by
  refine ⟨?_, ?_, ?_⟩
  · intro h
    rw [apiAnswer, if_pos h]
  · intro q hqid hq
    have hdisp := apiAnswer_eq_dispatch s data q hqid hq
    refine ⟨?_, ?_, ?_⟩
    · intro ht
      refine ⟨?_, ?_, ?_⟩
      · intro hv
        rw [hdisp, typeDispatch]
        simp only [ht, eq_self_iff_true, if_true, hv]
      · intro v hv hi
        rw [hdisp, typeDispatch]
        simp only [ht, eq_self_iff_true, if_true, hv, hi]
      · intro v i hv hi hfind
        rw [hdisp, typeDispatch]
        simp only [ht, eq_self_iff_true, if_true, hv, hi, hfind]
    · intro ht
      have hns : ¬ (q.qtype = "single") := by
        rw [ht]
        decide
      refine ⟨?_, ?_, ?_⟩
      · intro hnl
        rw [hdisp, typeDispatch, if_neg hns]
        simp only [ht, eq_self_iff_true, if_true]
        cases hox : data.option_idxs with
        | none => rfl
        | some v =>
          cases v with
          | jlist xs =>
            rw [hox] at hnl
            simp [isJList] at hnl
          | jnull => rfl
          | jbool b => rfl
          | jint n => rfl
          | jfloat m e => rfl
          | jstr str => rfl
      · intro xs hxs hmap
        rw [hdisp, typeDispatch, if_neg hns]
        simp only [ht, eq_self_iff_true, if_true, hxs, hmap]
      · intro xs is hxs hmap hfilter
        rw [hdisp, typeDispatch, if_neg hns]
        simp only [ht, eq_self_iff_true, if_true, hxs, hmap, hfilter]
        rfl
    · intro ht hv
      have hns : ¬ (q.qtype = "single") := by
        rw [ht]
        decide
      have hnm : ¬ (q.qtype = "multi") := by
        rw [ht]
        decide
      rw [hdisp, typeDispatch, if_neg hns, if_neg hnm]
      simp only [ht, eq_self_iff_true, if_true, hv]
  · intro code st h
    constructor
    · intro ft fx ans hcon
      rw [h] at hcon
      cases hcon
    · intro nq ans hcon
      rw [h] at hcon
      cases hcon

/-- Witness for C8 at `wSurvey`: submitting an empty option-index list to
the `multi` question Q2 is rejected with `no_selection` and a 400 status. -/
theorem c8_witness :
    apiAnswer wSurvey { qid := some (JVal.jstr "Q2"), option_idxs := some (JVal.jlist []) } =
      ApiResult.err "no_selection" 400 := by
  have h := c8_rejection_no_state_change wSurvey
    { qid := some (JVal.jstr "Q2"), option_idxs := some (JVal.jlist []) }
  exact ((h.2.1 wQ2 (by decide) (by rfl)).2.1 (by rfl)).2.2 [] [] rfl rfl (by rfl)

end SurveyApp
